import Mathlib

/-!
# Verification of the JacquardSDKiOS release scripts

Shallow embedding of the two Python release-engineering scripts of the
repository, `Scripts/release_readiness.py` and `Scripts/update_build_hash.py`,
together with proofs of the specification claims about them.

External commands (git, jazzy, swift-format, pod, xcodebuild, find/grep
pipelines) are modelled by an environment record carrying the outcome of each
invocation: its exit code and the text it produced.  The scripts themselves are
straight-line code over those outcomes; Python `assert` failures (which abort
the process) are modelled by `Option`, aborted runs being `none`.  Printing is
modelled by an output trace of events carrying their payloads.
-/

/-! ## A JSON model and parser

`update_build_hash.py` writes a file that is supposed to be JSON, and
`release_readiness.py` consumes the JSON coverage report already parsed.  To
state claims about the written file being (or not being) valid JSON with given
fields, we embed a JSON value type and a recursive-descent parser of the JSON
grammar (RFC 8259): values are null, booleans, numbers (kept as their source
lexeme), strings, arrays and objects.
-/

inductive Json where
  | null : Json
  | bool (b : Bool) : Json
  | num (lexeme : String) : Json
  | str (s : String) : Json
  | arr (elems : List Json) : Json
  | obj (fields : List (String × Json)) : Json

/-- JSON insignificant whitespace. -/
def jsonWs (c : Char) : Bool :=
  c = ' ' ∨ c = '\n' ∨ c = '\t' ∨ c = '\r'

def skipWs : List Char → List Char
  | [] => []
  | c :: rest => if jsonWs c then skipWs rest else c :: rest

/-- Hex digit value, for `\uXXXX` escapes. -/
def hexVal (c : Char) : Option Nat :=
  if '0' ≤ c ∧ c ≤ '9' then some (c.toNat - '0'.toNat)
  else if 'a' ≤ c ∧ c ≤ 'f' then some (c.toNat - 'a'.toNat + 10)
  else if 'A' ≤ c ∧ c ≤ 'F' then some (c.toNat - 'A'.toNat + 10)
  else none

/-- Parse the body of a JSON string after the opening quote: characters up to
the closing quote, decoding escapes, rejecting raw control characters. -/
def parseStringBody : List Char → Option (List Char × List Char)
  | [] => none
  | c :: rest =>
    if c = '"' then some ([], rest)
    else if c = '\\' then
      match rest with
      | [] => none
      | e :: rest2 =>
        if e = '"' ∨ e = '\\' ∨ e = '/' then
          (parseStringBody rest2).map (fun p => (e :: p.1, p.2))
        else if e = 'b' then
          (parseStringBody rest2).map (fun p => ('\x08' :: p.1, p.2))
        else if e = 'f' then
          (parseStringBody rest2).map (fun p => ('\x0c' :: p.1, p.2))
        else if e = 'n' then
          (parseStringBody rest2).map (fun p => ('\n' :: p.1, p.2))
        else if e = 'r' then
          (parseStringBody rest2).map (fun p => ('\r' :: p.1, p.2))
        else if e = 't' then
          (parseStringBody rest2).map (fun p => ('\t' :: p.1, p.2))
        else if e = 'u' then
          match rest2 with
          | h1 :: h2 :: h3 :: h4 :: rest3 =>
            match hexVal h1, hexVal h2, hexVal h3, hexVal h4 with
            | some v1, some v2, some v3, some v4 =>
              (parseStringBody rest3).map
                (fun p => (Char.ofNat (((v1 * 16 + v2) * 16 + v3) * 16 + v4) :: p.1, p.2))
            | _, _, _, _ => none
          | _ => none
        else none
    else if c.toNat < 32 then none
    else (parseStringBody rest).map (fun p => (c :: p.1, p.2))

/-- Longest digit run at the front. -/
def digitSpan (l : List Char) : List Char × List Char :=
  (l.takeWhile (fun c => c.isDigit), l.dropWhile (fun c => c.isDigit))

/-- Optional fraction part `.digits` of a JSON number. -/
def parseFracPart : List Char → Option (List Char × List Char)
  | '.' :: r =>
    let (ds, r2) := digitSpan r
    if ds = [] then none else some ('.' :: ds, r2)
  | l => some ([], l)

/-- Optional exponent part `[eE][+-]?digits` of a JSON number. -/
def parseExpPart : List Char → Option (List Char × List Char)
  | [] => some ([], [])
  | c :: r =>
    if c = 'e' ∨ c = 'E' then
      let (sgn, r2) :=
        match r with
        | s :: r' => if s = '+' ∨ s = '-' then ([s], r') else (([] : List Char), s :: r')
        | [] => ([], ([] : List Char))
      let (ds, r3) := digitSpan r2
      if ds = [] then none else some (c :: (sgn ++ ds), r3)
    else some ([], c :: r)

/-- A JSON number lexeme: `-? int frac? exp?`. -/
def parseNumberLexeme (input : List Char) : Option (List Char × List Char) :=
  let (neg, r1) :=
    match input with
    | '-' :: r => ([('-' : Char)], r)
    | _ => ([], input)
  match r1 with
  | [] => none
  | c :: cs =>
    if c.isDigit then
      let (ds, r2) :=
        if c = '0' then ([('0' : Char)], cs) else digitSpan r1
      match parseFracPart r2 with
      | none => none
      | some (fr, r3) =>
        match parseExpPart r3 with
        | none => none
        | some (ex, r4) => some (neg ++ ds ++ fr ++ ex, r4)
    else none

mutual

/-- Parse one JSON value (fuel-indexed recursion; one unit of fuel is spent per
nesting step, so `input.length + 1` is always enough). -/
def parseValue : Nat → List Char → Option (Json × List Char)
  | 0, _ => none
  | fuel + 1, input =>
    match input with
    | 'n' :: 'u' :: 'l' :: 'l' :: rest => some (.null, rest)
    | 't' :: 'r' :: 'u' :: 'e' :: rest => some (.bool true, rest)
    | 'f' :: 'a' :: 'l' :: 's' :: 'e' :: rest => some (.bool false, rest)
    | '"' :: rest =>
      (parseStringBody rest).map (fun p => (.str ⟨p.1⟩, p.2))
    | '[' :: rest =>
      match skipWs rest with
      | ']' :: rest2 => some (.arr [], rest2)
      | rest2 =>
        match parseElems fuel rest2 with
        | some (es, rest3) => some (.arr es, rest3)
        | none => none
    | '{' :: rest =>
      match skipWs rest with
      | '}' :: rest2 => some (.obj [], rest2)
      | rest2 =>
        match parseMembers fuel rest2 with
        | some (ms, rest3) => some (.obj ms, rest3)
        | none => none
    | _ =>
      match parseNumberLexeme input with
      | some (lx, rest) => some (.num ⟨lx⟩, rest)
      | none => none

/-- Parse one or more comma-separated array elements and the closing `]`. -/
def parseElems : Nat → List Char → Option (List Json × List Char)
  | 0, _ => none
  | fuel + 1, input =>
    match parseValue fuel input with
    | none => none
    | some (v, rest) =>
      match skipWs rest with
      | ',' :: rest2 =>
        match parseElems fuel (skipWs rest2) with
        | some (es, rest3) => some (v :: es, rest3)
        | none => none
      | ']' :: rest2 => some ([v], rest2)
      | _ => none

/-- Parse one or more comma-separated object members and the closing `}`. -/
def parseMembers : Nat → List Char → Option (List (String × Json) × List Char)
  | 0, _ => none
  | fuel + 1, input =>
    match input with
    | '"' :: rest =>
      match parseStringBody rest with
      | none => none
      | some (key, r1) =>
        match skipWs r1 with
        | ':' :: r2 =>
          match parseValue fuel (skipWs r2) with
          | none => none
          | some (v, r3) =>
            match skipWs r3 with
            | ',' :: r4 =>
              match parseMembers fuel (skipWs r4) with
              | some (ms, r5) => some ((⟨key⟩, v) :: ms, r5)
              | none => none
            | '}' :: r4 => some ([(⟨key⟩, v)], r4)
            | _ => none
        | _ => none
    | _ => none

end

/-- Parse a whole string as a single JSON document: optional leading and
trailing whitespace around exactly one value. -/
def parseJsonString (s : String) : Option Json :=
  let cs := s.data
  match parseValue (cs.length + 1) (skipWs cs) with
  | some (v, rest) => if skipWs rest = [] then some v else none
  | none => none

/-! ## `Scripts/update_build_hash.py` (the Build Stamper)

The script queries `xcrun which git`, `git rev-parse --short HEAD` and
`git show -s --format=%ci HEAD`, asserts each exit code is zero, `rstrip`s the
outputs, changes directory to the git root (asserting that
`git rev-parse --show-toplevel` exits zero), and overwrites
`Example/JacquardSDK/BuildHash.json` with an f-string interpolating the two
values.  The environment carries each command's outcome; the run result is the
list of file-system effects, or `none` when an assertion aborts the process.
-/

/-- Python `str.rstrip()` on ASCII whitespace. -/
def pyWhitespace (c : Char) : Bool :=
  c = ' ' ∨ c = '\t' ∨ c = '\n' ∨ c = '\r' ∨ c = '\x0b' ∨ c = '\x0c'

/-- Python `str.rstrip()`: drop trailing whitespace. -/
def pyRstrip (s : String) : String :=
  ⟨(s.data.reverse.dropWhile pyWhitespace).reverse⟩

/-- The exact content written by `update_build_hash.py`'s f-string:
`f"""{{\n  "buildHash": "{sha}",\n  "buildDate": "{date}"\n}}\n"""`. -/
def buildHashContent (sha date : String) : String :=
  "\x7b\n  \"buildHash\": \"" ++ sha ++ "\",\n  \"buildDate\": \"" ++ date ++ "\"\n\x7d\n"

/-- Outcomes of the external commands `update_build_hash.py` runs. -/
structure BEnv where
  whichGitExit : Int
  whichGitOut : String
  shaExit : Int
  shaOut : String
  dateExit : Int
  dateOut : String
  gitRootExit : Int

/-- Observable file-system effects of the Build Stamper. -/
inductive BEff where
  | fileWrite (path content : String)
  deriving Repr, DecidableEq

/-- The whole run of `update_build_hash.py`: `which_git`, `git_sha`,
`git_date`, `cd_to_git_root`, then the single file write.  `none` models an
assertion abort, which happens before the write whenever any command fails. -/
def buildStamperRun (env : BEnv) : Option (List BEff) :=
  if env.whichGitExit ≠ 0 then none
  else if env.shaExit ≠ 0 then none
  else if env.dateExit ≠ 0 then none
  else if env.gitRootExit ≠ 0 then none
  else
    some [BEff.fileWrite "Example/JacquardSDK/BuildHash.json"
      (buildHashContent (pyRstrip env.shaOut) (pyRstrip env.dateOut))]

/-! ## `Scripts/release_readiness.py` (the Readiness Checker)

The script runs a fixed sequence of checks, each of which may flip the global
`release_ready` flag to `false` or abort the process via `assert`.  We model
the regular expressions it uses directly on character lists, the global flag
plus the printed output as a state record, and each check as a function from
the environment and state to `Option` state.
-/

/-- `pat` is a prefix of `s` (literal match). -/
def litPrefixed : List Char → List Char → Bool
  | [], _ => true
  | _ :: _, [] => false
  | p :: ps, c :: cs => p = c && litPrefixed ps cs

/-- Python `re.search` for a pattern `LIT.*` (no newlines in the subject):
the match, if any, runs from the leftmost occurrence of the literal `LIT`
to the end of the string.  Returns that suffix (the value of `group(0)`). -/
def searchSuffix (pat : List Char) : List Char → Option (List Char)
  | [] => if litPrefixed pat [] then some [] else none
  | c :: cs =>
    if litPrefixed pat (c :: cs) then some (c :: cs)
    else searchSuffix pat cs

/-- Python `re.search` for a literal pattern used only as a yes/no test. -/
def containsSub (pat s : List Char) : Bool :=
  (searchSuffix pat s).isSome

/-- The regex `^([0-9]+)% documentation coverage` applied with `re.search` to
one line (with no MULTILINE flag, `^` anchors at the start of the string):
returns `group(1)`, the leading digit run, when the line starts with digits
followed by `% documentation coverage`. -/
def docPercent (line : List Char) : Option (List Char) :=
  let ds := line.takeWhile (fun c => c.isDigit)
  let rest := line.dropWhile (fun c => c.isDigit)
  if ds ≠ [] ∧ litPrefixed "% documentation coverage".data rest then some ds
  else none

/-- `minimum_code_coverage = 0.8` (line 29). -/
def minimum_code_coverage : ℚ := 0.8

/-- `untestable_files` (lines 31–37). -/
def untestable_files : List String :=
  ["JacquardSDK/Classes/CentralManagerImplementation.swift",
   "JacquardSDK/Classes/Internal/Transport/PeripheralImplementation.swift",
   "JacquardSDK/Classes/Internal/Transport/Peripheral.swift",
   "JacquardSDK/Protobuf/jacquard.pb.swift",
   "JacquardSDK/Protobuf/publicSdk.pb.swift"]

/-- One entry of the per-file coverage report: the `"path"` and
`"lineCoverage"` fields the script reads.  Line coverage is modelled as an
exact rational. -/
structure CovFile where
  path : String
  lineCoverage : ℚ

/-- One product of the `xccov` JSON report (the script asserts there is
exactly one and reads its `"files"`). -/
structure CovProduct where
  files : List CovFile

/-- Printed output events, carrying their payloads. -/
inductive Out where
  | okMsg (check : String)
  | preCommitFailed (stdout : String)
  | lintLine (suffix : String)
  | lintFailed
  | docIncomplete (line : String)
  | covBadHeader
  | covBadFile (path : String) (cov : ℚ)
  | todoCount (pattern withoutBug withBug : String)
  | releaseReadyMsg
  | notReleaseReadyMsg

/-- The script's mutable state: the global `release_ready` flag and the
trace of printed output. -/
structure St where
  ready : Bool
  log : List Out

/-- Outcomes of the external commands `release_readiness.py` runs.  Output
already split into lines where the script calls `splitlines()`. -/
structure REnv where
  gitRootExit : Int
  preCommitExit : Int
  preCommitStdout : String
  swiftFormatStderrLines : List String
  podInstallExit : Int
  jazzyExit : Int
  jazzyStdoutLines : List String
  xcodebuildExit : Int
  xcresultMatch : Bool
  coverageJson : Option (List CovProduct)
  todoOutputs : String → String × String

/-- `cd_to_git_root` (lines 51–55): assert the toplevel query exits zero. -/
def cdToGitRoot (env : REnv) : Option Unit :=
  if env.gitRootExit = 0 then some () else none

/-- `check_pre_commit` (lines 154–164). -/
def checkPreCommit (env : REnv) (s : St) : Option St :=
  match cdToGitRoot env with
  | none => none
  | some _ =>
    if env.preCommitExit ≠ 0 then
      some { ready := false,
             log := s.log ++ [Out.preCommitFailed env.preCommitStdout] }
    else
      some { s with log := s.log ++ [Out.okMsg "pre_commit"] }

/-- The loop of `check_swift_format` (lines 90–96) over the stderr lines:
skip lines matching `NoBlockComments`; for the rest, assert a `JacquardSDK/.*`
match, print it, and clear the success flag.  Returns the prints and the final
`swift_format_success`, or `none` on the assertion. -/
def lintProcess : List String → Option (List Out × Bool)
  | [] => some ([], true)
  | line :: rest =>
    if containsSub "NoBlockComments".data line.data then lintProcess rest
    else
      match searchSuffix "JacquardSDK/".data line.data with
      | none => none
      | some suf =>
        (lintProcess rest).map (fun p => (Out.lintLine ⟨suf⟩ :: p.1, false))

/-- `check_swift_format` (lines 80–102). -/
def checkSwiftFormat (env : REnv) (s : St) : Option St :=
  match cdToGitRoot env with
  | none => none
  | some _ =>
    match lintProcess env.swiftFormatStderrLines with
    | none => none
    | some (outs, ok) =>
      if ok then some { s with log := s.log ++ [Out.okMsg "swift-format"] }
      else some { ready := false, log := s.log ++ outs ++ [Out.lintFailed] }

/-- `pod_install` (lines 105–111): aborts on non-zero exit, never touches the
flag. -/
def podInstall (env : REnv) (s : St) : Option St :=
  match cdToGitRoot env with
  | none => none
  | some _ =>
    if env.podInstallExit ≠ 0 then none
    else some { s with log := s.log ++ [Out.okMsg "pod"] }

/-- The loop of `check_documentation_percentage` (lines 66–75): the first
line with a `^([0-9]+)% documentation coverage` match, with its `group(1)`. -/
def docFindFirst : List String → Option (String × List Char)
  | [] => none
  | line :: rest =>
    match docPercent line.data with
    | some ds => some (line, ds)
    | none => docFindFirst rest

/-- `check_documentation_percentage` (lines 58–77). -/
def checkDocumentation (env : REnv) (s : St) : Option St :=
  match cdToGitRoot env with
  | none => none
  | some _ =>
    if env.jazzyExit ≠ 0 then none
    else
      match docFindFirst env.jazzyStdoutLines with
      | none => none
      | some (line, ds) =>
        if ds ≠ "100".data then
          some { ready := false, log := s.log ++ [Out.docIncomplete line] }
        else
          some { s with log := s.log ++ [Out.okMsg "documentation"] }

/-- The loop of `check_code_coverage` (lines 132–141): build `bad_files`,
asserting each path matches `JacquardSDK/.*`, skipping the untestable
allow-list, and collecting files strictly below the threshold. -/
def covBadFiles : List CovFile → Option (List (String × ℚ))
  | [] => some []
  | f :: rest =>
    match searchSuffix "JacquardSDK/".data f.path.data with
    | none => none
    | some suf =>
      if (⟨suf⟩ : String) ∈ untestable_files then covBadFiles rest
      else if f.lineCoverage < minimum_code_coverage then
        (covBadFiles rest).map (fun bad => (⟨suf⟩, f.lineCoverage) :: bad)
      else covBadFiles rest

/-- The tail of `check_code_coverage` (lines 132–148), reached only after the
report-shape assertions: the per-file threshold comparison and the flag
update when `bad_files` is non-empty. -/
def covThresholdStage (fs : List CovFile) (s : St) : Option St :=
  match covBadFiles fs with
  | none => none
  | some bad =>
    if bad.length > 0 then
      some { ready := false,
             log := s.log ++ [Out.covBadHeader] ++
               bad.map (fun p => Out.covBadFile p.1 p.2) }
    else some s

/-- `check_code_coverage` (lines 114–151). -/
def checkCodeCoverage (env : REnv) (s : St) : Option St :=
  match cdToGitRoot env with
  | none => none
  | some _ =>
    if env.xcodebuildExit ≠ 0 then none
    else if env.xcresultMatch = false then none
    else
      match env.coverageJson with
      | none => none
      | some report =>
        match report with
        | [product] =>
          if product.files.length > 5 then covThresholdStage product.files s
          else none
        | _ => none

/-- `check_todo_count` (lines 167–179): runs the two count pipelines and
prints both counts; never touches the flag. -/
def checkTodoCount (env : REnv) (pattern : String) (s : St) : Option St :=
  match cdToGitRoot env with
  | none => none
  | some _ =>
    let res := env.todoOutputs pattern
    some { s with log := s.log ++ [Out.todoCount pattern res.1 res.2] }

/-- The fixed check sequence of the script body (lines 182–188). -/
def steps (env : REnv) : List (St → Option St) :=
  [checkPreCommit env, checkSwiftFormat env, podInstall env,
   checkDocumentation env, checkCodeCoverage env,
   checkTodoCount env "*.swift", checkTodoCount env "*.md"]

/-- Run a list of checks in sequence from a state. -/
def runFrom : List (St → Option St) → St → Option St
  | [], s => some s
  | c :: cs, s =>
    match c s with
    | none => none
    | some s' => runFrom cs s'

/-- The initial state: `release_ready = True` (line 26), nothing printed. -/
def initSt : St := { ready := true, log := [] }

/-- The whole check sequence from the initial state. -/
def runChecks (env : REnv) : Option St :=
  runFrom (steps env) initSt

/-- The script's final lines (190–194): summary print and exit code. -/
def mainResult (env : REnv) : Option (St × Nat) :=
  match runChecks env with
  | none => none
  | some s =>
    if s.ready then some ({ s with log := s.log ++ [Out.releaseReadyMsg] }, 0)
    else some ({ s with log := s.log ++ [Out.notReleaseReadyMsg] }, 1)

/-! ### Pass predicates

Characterisations, per check, of "the check passed", read off the
environment the same way the script does. -/

/-- The pre-commit gate passes iff `pre_commit.sh` exits zero. -/
def preCommitPass (env : REnv) : Bool :=
  env.preCommitExit = 0

/-- The lint gate passes iff every stderr line matches the benign
`NoBlockComments` pattern. -/
def lintPass (env : REnv) : Bool :=
  env.swiftFormatStderrLines.all
    (fun line => containsSub "NoBlockComments".data line.data)

/-- The documentation gate passes iff the first matching jazzy line reports
exactly 100 (vacuously true when no line matches, in which case the run
aborts anyway). -/
def docsPass (env : REnv) : Bool :=
  match docFindFirst env.jazzyStdoutLines with
  | none => true
  | some (_, ds) => ds = "100".data

/-- The coverage gate passes iff no non-exempt file is below the threshold
(vacuously true on report shapes that abort the run). -/
def covPass (env : REnv) : Bool :=
  match env.coverageJson with
  | none => true
  | some report =>
    match report with
    | [product] =>
      match covBadFiles product.files with
      | none => true
      | some bad => bad.length = 0
    | _ => true

/-! ## Theorems: the code-coverage check -/

/-- Files collected in `bad_files` are never from the untestable allow-list:
the `continue` at line 139 runs before the threshold comparison. -/
theorem covBadFiles_not_untestable :
    ∀ (fs : List CovFile) (bad : List (String × ℚ)),
      covBadFiles fs = some bad →
      ∀ (p : String) (c : ℚ), (p, c) ∈ bad → p ∉ untestable_files := by
  intro fs
  induction fs with
  | nil =>
    intro bad h p c hmem
    rw [covBadFiles] at h
    obtain rfl : ([] : List (String × ℚ)) = bad := Option.some.inj h
    exact absurd hmem (by simp)
  | cons f rest ih =>
    intro bad h p c hmem hunt
    cases hm : searchSuffix "JacquardSDK/".data f.path.data with
    | none =>
      simp only [covBadFiles, hm] at h
      exact Option.noConfusion h
    | some suf =>
      simp only [covBadFiles, hm] at h
      by_cases hu : (⟨suf⟩ : String) ∈ untestable_files
      · rw [if_pos hu] at h
        exact ih bad h p c hmem hunt
      · rw [if_neg hu] at h
        by_cases hc : f.lineCoverage < minimum_code_coverage
        · rw [if_pos hc] at h
          cases hrest : covBadFiles rest with
          | none => rw [hrest] at h; exact absurd h (by simp)
          | some bad' =>
            rw [hrest] at h
            simp only [Option.map_some'] at h
            obtain rfl : _ :: bad' = bad := Option.some.inj h
            rcases List.mem_cons.mp hmem with heq | htail
            · rw [(Prod.mk.injEq _ _ _ _).mp heq |>.1] at hunt
              exact hu hunt
            · exact ih bad' hrest p c htail hunt
        · rw [if_neg hc] at h
          exact ih bad h p c hmem hunt

/-- C4: An entry whose extracted `JacquardSDK/...` suffix is in the untestable
allow-list is excluded from the threshold comparison regardless of its
reported coverage: removing it from the report leaves `bad_files` unchanged,
and no allow-listed path ever appears in `bad_files`. -/
theorem untestable_files_excluded (f : CovFile) (suf : List Char)
    (hm : searchSuffix "JacquardSDK/".data f.path.data = some suf)
    (hu : (⟨suf⟩ : String) ∈ untestable_files) :
    (∀ l1 l2, covBadFiles (l1 ++ f :: l2) = covBadFiles (l1 ++ l2)) ∧
    (∀ fs bad, covBadFiles fs = some bad →
      ∀ c : ℚ, ((⟨suf⟩ : String), c) ∉ bad) := by
  constructor
  · intro l1 l2
    induction l1 with
    | nil => simp [covBadFiles, hm, hu]
    | cons g l1 ih =>
      simp only [List.cons_append]
      conv_lhs => rw [covBadFiles]
      conv_rhs => rw [covBadFiles]
      rw [ih]
  · intro fs bad hfs c hmem
    exact covBadFiles_not_untestable fs bad hfs _ c hmem hu

def covFileC4 : CovFile :=
  { path := "/repo/JacquardSDK/Protobuf/jacquard.pb.swift", lineCoverage := 0.1 }

def covFileOther : CovFile :=
  { path := "/repo/JacquardSDK/Classes/Other.swift", lineCoverage := 1 }

/-- C4 witness: a listed file reporting coverage 0.1 leaves `bad_files`
exactly as without it. -/
theorem untestable_files_excluded_witness :
    covBadFiles ([] ++ covFileC4 :: [covFileOther]) =
      covBadFiles ([] ++ [covFileOther]) :=
  (untestable_files_excluded covFileC4
    "JacquardSDK/Protobuf/jacquard.pb.swift".data
    (by decide) (by decide)).1 [] [covFileOther]

/-- C5: For a non-exempt entry, the threshold comparison is strict: the entry
joins `bad_files` exactly when its `lineCoverage` is strictly below
`minimum_code_coverage = 0.8`. -/
theorem coverage_threshold_strict (f : CovFile) (rest : List CovFile)
    (suf : List Char) (bad : List (String × ℚ))
    (hm : searchSuffix "JacquardSDK/".data f.path.data = some suf)
    (hu : (⟨suf⟩ : String) ∉ untestable_files)
    (hrest : covBadFiles rest = some bad) :
    covBadFiles (f :: rest) =
      some (if f.lineCoverage < minimum_code_coverage
            then ((⟨suf⟩ : String), f.lineCoverage) :: bad else bad) := by
  simp only [covBadFiles, hm]
  rw [if_neg hu]
  by_cases hc : f.lineCoverage < minimum_code_coverage
  · rw [if_pos hc, if_pos hc, hrest, Option.map_some']
  · rw [if_neg hc, if_neg hc, hrest]

def covFileAt08 : CovFile :=
  { path := "/repo/JacquardSDK/Classes/X.swift", lineCoverage := 0.8 }

def covFileAt079999 : CovFile :=
  { path := "/repo/JacquardSDK/Classes/X.swift", lineCoverage := 0.79999 }

/-- C5 witness: coverage exactly 0.8 passes (not in `bad_files`), coverage
0.79999 fails (in `bad_files`). -/
theorem coverage_threshold_strict_witness :
    covBadFiles [covFileAt08] = some [] ∧
    covBadFiles [covFileAt079999] =
      some [("JacquardSDK/Classes/X.swift", 0.79999)] := by
  constructor
  · have h := coverage_threshold_strict covFileAt08 []
      "JacquardSDK/Classes/X.swift".data [] (by decide) (by decide) rfl
    rw [if_neg (by norm_num [covFileAt08, minimum_code_coverage])] at h
    exact h
  · have h := coverage_threshold_strict covFileAt079999 []
      "JacquardSDK/Classes/X.swift".data [] (by decide) (by decide) rfl
    rw [if_pos (by norm_num [covFileAt079999, minimum_code_coverage])] at h
    exact h

/-- C10: When the single product of a well-formed coverage report has at most
5 files, `check_code_coverage` aborts via `assert len(files) > 5` even when
every file meets the threshold; the per-file comparison stage is reached
exactly when the report has more than 5 files. -/
theorem covCheck_small_report_aborts (env : REnv) (s : St) (p : CovProduct)
    (hroot : env.gitRootExit = 0) (hxb : env.xcodebuildExit = 0)
    (hxr : env.xcresultMatch = true) (hrep : env.coverageJson = some [p]) :
    (p.files.length ≤ 5 → checkCodeCoverage env s = none) ∧
    (5 < p.files.length → checkCodeCoverage env s = covThresholdStage p.files s) := by
  constructor
  · intro h
    have h5 : ¬ (p.files.length > 5) := by omega
    simp [checkCodeCoverage, cdToGitRoot, hroot, hxb, hxr, hrep, h5]
  · intro h
    simp [checkCodeCoverage, cdToGitRoot, hroot, hxb, hxr, hrep, h]

def envC10 : REnv :=
  { gitRootExit := 0, preCommitExit := 0, preCommitStdout := "",
    swiftFormatStderrLines := [], podInstallExit := 0, jazzyExit := 0,
    jazzyStdoutLines := [], xcodebuildExit := 0, xcresultMatch := true,
    coverageJson := some [{ files := [covFileOther] }],
    todoOutputs := fun _ => ("", "") }

/-- C10 witness: a one-file report (with full coverage) aborts the check. -/
theorem covCheck_small_report_aborts_witness :
    checkCodeCoverage envC10 initSt = none :=
  (covCheck_small_report_aborts envC10 initSt { files := [covFileOther] }
    rfl rfl rfl rfl).1 (by decide)

/-! ## Theorems: the Build Stamper -/

def benvC2 : BEnv :=
  { whichGitExit := 0, whichGitOut := "/usr/bin/git\n",
    shaExit := 0, shaOut := "abc1234\n",
    dateExit := 0, dateOut := "2021-01-01 00:00:00 +0000\n",
    gitRootExit := 0 }

/-- C2: With git reporting short hash `abc1234` and commit date
`2021-01-01 00:00:00 +0000`, the Build Stamper performs exactly one write, to
`Example/JacquardSDK/BuildHash.json`, and the written content parses as JSON
to an object with exactly the two string fields `buildHash` and `buildDate`
holding those values. -/
theorem buildStamper_writes_exact_json :
    buildStamperRun benvC2 =
      some [BEff.fileWrite "Example/JacquardSDK/BuildHash.json"
        (buildHashContent "abc1234" "2021-01-01 00:00:00 +0000")] ∧
    parseJsonString (buildHashContent "abc1234" "2021-01-01 00:00:00 +0000") =
      some (Json.obj [("buildHash", Json.str "abc1234"),
                      ("buildDate", Json.str "2021-01-01 00:00:00 +0000")]) :=
  ⟨rfl, rfl⟩

/-- C7: When `git rev-parse --show-toplevel` exits non-zero, both utilities
abort via assertion: the Build Stamper's run produces no effects at all (in
particular no write to the output file, since `cd_to_git_root` runs before
`open`), and the Readiness Checker aborts in its first check. -/
theorem gitroot_failure_aborts (benv : BEnv) (renv : REnv)
    (hb : benv.gitRootExit ≠ 0) (hr : renv.gitRootExit ≠ 0) :
    buildStamperRun benv = none ∧ runChecks renv = none := by
  constructor
  · unfold buildStamperRun
    split_ifs <;> simp_all
  · have h1 : checkPreCommit renv initSt = none := by
      simp [checkPreCommit, cdToGitRoot, hr]
    simp [runChecks, steps, runFrom, h1]

def benvC7 : BEnv :=
  { whichGitExit := 0, whichGitOut := "/usr/bin/git\n",
    shaExit := 0, shaOut := "abc1234\n",
    dateExit := 0, dateOut := "2021-01-01 00:00:00 +0000\n",
    gitRootExit := 128 }

def renvC7 : REnv :=
  { gitRootExit := 128, preCommitExit := 0, preCommitStdout := "",
    swiftFormatStderrLines := [], podInstallExit := 0, jazzyExit := 0,
    jazzyStdoutLines := [], xcodebuildExit := 0, xcresultMatch := true,
    coverageJson := none, todoOutputs := fun _ => ("", "") }

/-- C7 witness: exit code 128 from the toplevel query aborts both runs. -/
theorem gitroot_failure_aborts_witness :
    buildStamperRun benvC7 = none ∧ runChecks renvC7 = none :=
  gitroot_failure_aborts benvC7 renvC7 (by decide) (by decide)

/-! ## Per-check effect on the Readiness Flag -/

/-- The success flag computed by the lint loop is true iff every stderr line
matches the benign `NoBlockComments` pattern. -/
theorem lintProcess_ok (lines : List String) (outs : List Out) (ok : Bool)
    (h : lintProcess lines = some (outs, ok)) :
    ok = lines.all (fun l => containsSub "NoBlockComments".data l.data) := by
  induction lines generalizing outs ok with
  | nil =>
    rw [lintProcess] at h
    obtain ⟨-, rfl⟩ := Prod.mk.injEq .. ▸ Option.some.inj h
    rfl
  | cons line rest ih =>
    rw [lintProcess] at h
    by_cases hig : containsSub "NoBlockComments".data line.data
    · rw [if_pos hig] at h
      simp [List.all_cons, hig, ih outs ok h]
    · rw [if_neg hig] at h
      cases hm : searchSuffix "JacquardSDK/".data line.data with
      | none => simp [hm] at h
      | some suf =>
        simp only [hm] at h
        cases hrest : lintProcess rest with
        | none => simp [hrest] at h
        | some p =>
          obtain ⟨outs', ok'⟩ := p
          simp only [hrest, Option.map_some'] at h
          obtain ⟨-, hok⟩ := Prod.mk.injEq .. ▸ Option.some.inj h
          simp [List.all_cons, hig, ← hok]

/-- `check_pre_commit` multiplies the flag by its gate outcome. -/
theorem checkPreCommit_ready (env : REnv) (s s' : St)
    (h : checkPreCommit env s = some s') :
    s'.ready = (s.ready && preCommitPass env) := by
  by_cases hg : env.gitRootExit = 0
  · simp only [checkPreCommit, cdToGitRoot, if_pos hg] at h
    by_cases hp : env.preCommitExit ≠ 0
    · rw [if_pos hp] at h
      obtain rfl := Option.some.inj h
      simp [preCommitPass, hp]
    · rw [if_neg hp] at h
      obtain rfl := Option.some.inj h
      simp only [ne_eq, not_not] at hp
      simp [preCommitPass, hp]
  · simp [checkPreCommit, cdToGitRoot, hg] at h

/-- `check_swift_format` multiplies the flag by its gate outcome. -/
theorem checkSwiftFormat_ready (env : REnv) (s s' : St)
    (h : checkSwiftFormat env s = some s') :
    s'.ready = (s.ready && lintPass env) := by
  by_cases hg : env.gitRootExit = 0
  · simp only [checkSwiftFormat, cdToGitRoot, if_pos hg] at h
    cases hlp : lintProcess env.swiftFormatStderrLines with
    | none => simp [hlp] at h
    | some p =>
      obtain ⟨outs, ok⟩ := p
      simp only [hlp] at h
      have hok := lintProcess_ok _ _ _ hlp
      simp only at hok
      by_cases hb : ok = true
      · rw [if_pos hb] at h
        obtain rfl := Option.some.inj h
        simp [lintPass, ← hok, hb]
      · rw [if_neg hb] at h
        obtain rfl := Option.some.inj h
        simp only [Bool.not_eq_true] at hb
        simp [lintPass, ← hok, hb]
  · simp [checkSwiftFormat, cdToGitRoot, hg] at h

/-- `pod_install` never touches the flag. -/
theorem podInstall_ready (env : REnv) (s s' : St)
    (h : podInstall env s = some s') : s'.ready = s.ready := by
  by_cases hg : env.gitRootExit = 0
  · simp only [podInstall, cdToGitRoot, if_pos hg] at h
    by_cases hp : env.podInstallExit ≠ 0
    · rw [if_pos hp] at h; exact Option.noConfusion h
    · rw [if_neg hp] at h
      obtain rfl := Option.some.inj h
      rfl
  · simp [podInstall, cdToGitRoot, hg] at h

/-- `check_documentation_percentage` multiplies the flag by its gate
outcome. -/
theorem checkDocumentation_ready (env : REnv) (s s' : St)
    (h : checkDocumentation env s = some s') :
    s'.ready = (s.ready && docsPass env) := by
  by_cases hg : env.gitRootExit = 0
  · simp only [checkDocumentation, cdToGitRoot, if_pos hg] at h
    by_cases hj : env.jazzyExit ≠ 0
    · rw [if_pos hj] at h; exact Option.noConfusion h
    · rw [if_neg hj] at h
      cases hf : docFindFirst env.jazzyStdoutLines with
      | none => simp [hf] at h
      | some p =>
        obtain ⟨line, ds⟩ := p
        simp only [hf] at h
        by_cases hd : ds = "100".data
        · rw [if_neg (by simpa using hd)] at h
          obtain rfl := Option.some.inj h
          simp [docsPass, hf, hd]
        · rw [if_pos (by simpa using hd)] at h
          obtain rfl := Option.some.inj h
          simp [docsPass, hf, hd]
  · simp [checkDocumentation, cdToGitRoot, hg] at h

/-- `check_code_coverage` multiplies the flag by its gate outcome. -/
theorem checkCodeCoverage_ready (env : REnv) (s s' : St)
    (h : checkCodeCoverage env s = some s') :
    s'.ready = (s.ready && covPass env) := by
  by_cases hg : env.gitRootExit = 0
  · simp only [checkCodeCoverage, cdToGitRoot, if_pos hg] at h
    by_cases hx : env.xcodebuildExit ≠ 0
    · rw [if_pos hx] at h; exact Option.noConfusion h
    · rw [if_neg hx] at h
      by_cases hm : env.xcresultMatch = false
      · rw [if_pos hm] at h; exact Option.noConfusion h
      · rw [if_neg hm] at h
        cases hrep : env.coverageJson with
        | none => simp [hrep] at h
        | some report =>
          simp only [hrep] at h
          match report with
          | [] => exact Option.noConfusion h
          | [product] =>
            simp only at h
            by_cases h5 : product.files.length > 5
            · rw [if_pos h5] at h
              simp only [covThresholdStage] at h
              cases hbf : covBadFiles product.files with
              | none => simp [hbf] at h
              | some bad =>
                simp only [hbf] at h
                by_cases hlen : bad.length > 0
                · rw [if_pos hlen] at h
                  obtain rfl := Option.some.inj h
                  simp only [covPass, hrep]
                  simp only [hbf]
                  have : ¬ bad.length = 0 := by omega
                  simp [this]
                · rw [if_neg hlen] at h
                  obtain rfl := Option.some.inj h
                  simp only [covPass, hrep]
                  simp only [hbf]
                  have : bad.length = 0 := by omega
                  simp [this]
            · rw [if_neg h5] at h
              exact Option.noConfusion h
          | _ :: _ :: _ => exact Option.noConfusion h
  · simp [checkCodeCoverage, cdToGitRoot, hg] at h

/-- `check_todo_count` never touches the flag. -/
theorem checkTodoCount_ready (env : REnv) (pattern : String) (s s' : St)
    (h : checkTodoCount env pattern s = some s') : s'.ready = s.ready := by
  by_cases hg : env.gitRootExit = 0
  · simp only [checkTodoCount, cdToGitRoot, if_pos hg] at h
    obtain rfl := Option.some.inj h
    rfl
  · simp [checkTodoCount, cdToGitRoot, hg] at h

/-! ## Theorems: flag monotonicity and the end-to-end verdict -/

/-- Running any sequence of flag-monotone checks is flag-monotone. -/
theorem runFrom_ready_of_mono :
    ∀ (l : List (St → Option St)) (s s' : St),
      (∀ c ∈ l, ∀ t t', c t = some t' → t'.ready = true → t.ready = true) →
      runFrom l s = some s' → s'.ready = true → s.ready = true := by
  intro l
  induction l with
  | nil =>
    intro s s' _ h htrue
    rw [runFrom] at h
    obtain rfl := Option.some.inj h
    exact htrue
  | cons c cs ih =>
    intro s s' hmono h htrue
    rw [runFrom] at h
    cases hc : c s with
    | none => simp [hc] at h
    | some t =>
      simp only [hc] at h
      exact hmono c (List.mem_cons_self c cs) s t hc
        (ih t s' (fun d hd => hmono d (List.mem_cons_of_mem c hd)) h htrue)

/-- C6: The Readiness Flag is monotone over the run: it starts `true`, every
check can only lower it (a check result that is `true` implies the input flag
was `true`), and once it is `false` after any prefix of the check sequence, it
is `false` at the end of the remaining checks. -/
theorem readiness_flag_monotone (env : REnv) :
    initSt.ready = true ∧
    (∀ c ∈ steps env, ∀ s s', c s = some s' → s'.ready = true → s.ready = true) ∧
    (∀ l1 l2, steps env = l1 ++ l2 → ∀ s s', runFrom l1 initSt = some s →
      s.ready = false → runFrom l2 s = some s' → s'.ready = false) := by
  have mono : ∀ c ∈ steps env, ∀ s s',
      c s = some s' → s'.ready = true → s.ready = true := by
    intro c hc
    simp only [steps, List.mem_cons, List.not_mem_nil, or_false] at hc
    rcases hc with rfl | rfl | rfl | rfl | rfl | rfl | rfl
    · intro s s' h htrue
      rw [checkPreCommit_ready env s s' h] at htrue
      exact (Bool.and_eq_true _ _ |>.mp htrue).1
    · intro s s' h htrue
      rw [checkSwiftFormat_ready env s s' h] at htrue
      exact (Bool.and_eq_true _ _ |>.mp htrue).1
    · intro s s' h htrue
      rw [podInstall_ready env s s' h] at htrue
      exact htrue
    · intro s s' h htrue
      rw [checkDocumentation_ready env s s' h] at htrue
      exact (Bool.and_eq_true _ _ |>.mp htrue).1
    · intro s s' h htrue
      rw [checkCodeCoverage_ready env s s' h] at htrue
      exact (Bool.and_eq_true _ _ |>.mp htrue).1
    · intro s s' h htrue
      rw [checkTodoCount_ready env _ s s' h] at htrue
      exact htrue
    · intro s s' h htrue
      rw [checkTodoCount_ready env _ s s' h] at htrue
      exact htrue
  refine ⟨rfl, mono, ?_⟩
  intro l1 l2 hsplit s s' _ hfalse h2
  cases hr : s'.ready with
  | false => rfl
  | true =>
    have hs := runFrom_ready_of_mono l2 s s'
      (fun c hc => mono c (by rw [hsplit]; exact List.mem_append_right l1 hc)) h2 hr
    rw [hs] at hfalse
    exact Bool.noConfusion hfalse

def covProductOK : CovProduct :=
  { files := List.replicate 6 covFileC4 }

def envC6 : REnv :=
  { gitRootExit := 0, preCommitExit := 1, preCommitStdout := "boom",
    swiftFormatStderrLines := [], podInstallExit := 0, jazzyExit := 0,
    jazzyStdoutLines := ["100% documentation coverage"], xcodebuildExit := 0,
    xcresultMatch := true, coverageJson := some [covProductOK],
    todoOutputs := fun _ => ("0", "0") }

def midC6 : St := { ready := false, log := [Out.preCommitFailed "boom"] }

def finC6 : St :=
  { ready := false,
    log := [Out.preCommitFailed "boom", Out.okMsg "swift-format",
            Out.okMsg "pod", Out.okMsg "documentation",
            Out.todoCount "*.swift" "0" "0", Out.todoCount "*.md" "0" "0"] }

/-- C6 witness: a failing pre-commit makes the flag false after the first
check, and all six remaining checks passing leave it false at the end. -/
theorem readiness_flag_monotone_witness : St.ready finC6 = false :=
  (readiness_flag_monotone envC6).2.2
    [checkPreCommit envC6]
    [checkSwiftFormat envC6, podInstall envC6, checkDocumentation envC6,
     checkCodeCoverage envC6, checkTodoCount envC6 "*.swift",
     checkTodoCount envC6 "*.md"]
    rfl midC6 finC6 (by rfl) rfl (by rfl)

/-- A completed run's final flag is the conjunction of the four gate
outcomes. -/
theorem runChecks_ready (env : REnv) (s0 : St) (h : runChecks env = some s0) :
    s0.ready = (preCommitPass env && lintPass env && docsPass env && covPass env) := by
  simp only [runChecks, steps, runFrom] at h
  cases h1 : checkPreCommit env initSt with
  | none => simp [h1] at h
  | some s1 =>
    simp only [h1] at h
    cases h2 : checkSwiftFormat env s1 with
    | none => simp [h2] at h
    | some s2 =>
      simp only [h2] at h
      cases h3 : podInstall env s2 with
      | none => simp [h3] at h
      | some s3 =>
        simp only [h3] at h
        cases h4 : checkDocumentation env s3 with
        | none => simp [h4] at h
        | some s4 =>
          simp only [h4] at h
          cases h5 : checkCodeCoverage env s4 with
          | none => simp [h5] at h
          | some s5 =>
            simp only [h5] at h
            cases h6 : checkTodoCount env "*.swift" s5 with
            | none => simp [h6] at h
            | some s6 =>
              simp only [h6] at h
              cases h7 : checkTodoCount env "*.md" s6 with
              | none => simp [h7] at h
              | some s7 =>
                simp only [h7] at h
                obtain rfl := Option.some.inj h
                rw [checkTodoCount_ready env _ _ _ h7,
                  checkTodoCount_ready env _ _ _ h6,
                  checkCodeCoverage_ready env _ _ h5,
                  checkDocumentation_ready env _ _ h4,
                  podInstall_ready env _ _ h3,
                  checkSwiftFormat_ready env _ _ h2,
                  checkPreCommit_ready env _ _ h1]
                simp [initSt, Bool.and_assoc]

/-- C1: On a completed run, the final flag is true iff every gate check
(pre-commit, lint, documentation, coverage) passed; the exit code is 0 when
the flag is true and 1 when it is false; and the TODO-count check never
changes the flag. -/
theorem final_flag_iff_all_pass (env : REnv) (s : St) (code : Nat)
    (h : mainResult env = some (s, code)) :
    s.ready = (preCommitPass env && lintPass env && docsPass env && covPass env) ∧
    code = (if s.ready = true then 0 else 1) ∧
    (∀ pattern t t', checkTodoCount env pattern t = some t' → t'.ready = t.ready) := by
  simp only [mainResult] at h
  cases hrun : runChecks env with
  | none => simp [hrun] at h
  | some s0 =>
    simp only [hrun] at h
    have hready := runChecks_ready env s0 hrun
    by_cases hr : s0.ready = true
    · rw [if_pos hr] at h
      obtain ⟨rfl, rfl⟩ := Prod.mk.injEq .. ▸ (Option.some.inj h).symm
      refine ⟨hready, ?_, fun pattern t t' ht => checkTodoCount_ready env pattern t t' ht⟩
      simp only [St.ready] at hready ⊢
      simp [hr]
    · rw [if_neg hr] at h
      obtain ⟨rfl, rfl⟩ := Prod.mk.injEq .. ▸ (Option.some.inj h).symm
      refine ⟨hready, ?_, fun pattern t t' ht => checkTodoCount_ready env pattern t t' ht⟩
      simp only [St.ready] at hready ⊢
      simp [hr]

def envC1 : REnv :=
  { gitRootExit := 0, preCommitExit := 0, preCommitStdout := "",
    swiftFormatStderrLines := [], podInstallExit := 0, jazzyExit := 0,
    jazzyStdoutLines := ["100% documentation coverage"], xcodebuildExit := 0,
    xcresultMatch := true, coverageJson := some [covProductOK],
    todoOutputs := fun _ => ("0", "0") }

def finC1 : St :=
  { ready := true,
    log := [Out.okMsg "pre_commit", Out.okMsg "swift-format",
            Out.okMsg "pod", Out.okMsg "documentation",
            Out.todoCount "*.swift" "0" "0", Out.todoCount "*.md" "0" "0",
            Out.releaseReadyMsg] }

/-- C1 witness: an all-green environment completes with the flag true and
exit code 0. -/
theorem final_flag_iff_all_pass_witness :
    St.ready finC1 = (preCommitPass envC1 && lintPass envC1 &&
      docsPass envC1 && covPass envC1) ∧
    0 = (if St.ready finC1 = true then 0 else 1) :=
  ⟨(final_flag_iff_all_pass envC1 finC1 0 (by rfl)).1,
   (final_flag_iff_all_pass envC1 finC1 0 (by rfl)).2.1⟩

/-! ## Theorems: the documentation check -/

/-- `docFindFirst` misses exactly when no line matches the percentage
regex. -/
theorem docFindFirst_eq_none_iff (lines : List String) :
    docFindFirst lines = none ↔ ∀ l ∈ lines, docPercent l.data = none := by
  induction lines with
  | nil => simp [docFindFirst]
  | cons l rest ih =>
    cases hm : docPercent l.data with
    | some ds => simp [docFindFirst, hm]
    | none => simp [docFindFirst, hm, ih]

/-- C3: With jazzy succeeding, the documentation check acts on the first
line matching `^([0-9]+)% documentation coverage`: percentage exactly `100`
prints ok and leaves the state's flag untouched; any other percentage prints
a diagnostic carrying the offending line and sets the flag false; when no
line matches, the check aborts via assertion. -/
theorem docCheck_spec (env : REnv) (s : St)
    (hroot : env.gitRootExit = 0) (hj : env.jazzyExit = 0) :
    (∀ line ds, docFindFirst env.jazzyStdoutLines = some (line, ds) →
      (ds = "100".data →
        checkDocumentation env s =
          some { s with log := s.log ++ [Out.okMsg "documentation"] }) ∧
      (ds ≠ "100".data →
        checkDocumentation env s =
          some { ready := false, log := s.log ++ [Out.docIncomplete line] })) ∧
    (docFindFirst env.jazzyStdoutLines = none →
      checkDocumentation env s = none) ∧
    (docFindFirst env.jazzyStdoutLines = none ↔
      ∀ l ∈ env.jazzyStdoutLines, docPercent l.data = none) := by
  refine ⟨?_, ?_, docFindFirst_eq_none_iff _⟩
  · intro line ds hf
    constructor
    · intro hd
      simp only [checkDocumentation, cdToGitRoot, if_pos hroot, hj, ne_eq,
        not_true_eq_false, if_false, hf]
      rw [if_neg (by simpa using hd)]
    · intro hd
      simp only [checkDocumentation, cdToGitRoot, if_pos hroot, hj, ne_eq,
        not_true_eq_false, if_false, hf]
      rw [if_pos (by simpa using hd)]
  · intro hnone
    simp [checkDocumentation, cdToGitRoot, hroot, hj, hnone]

def envC3 : REnv :=
  { gitRootExit := 0, preCommitExit := 0, preCommitStdout := "",
    swiftFormatStderrLines := [], podInstallExit := 0, jazzyExit := 0,
    jazzyStdoutLines := ["99% documentation coverage"], xcodebuildExit := 0,
    xcresultMatch := true, coverageJson := some [covProductOK],
    todoOutputs := fun _ => ("0", "0") }

/-- C3 witness: a 99% report prints the diagnostic with the offending line
and sets the flag false. -/
theorem docCheck_spec_witness :
    checkDocumentation envC3 initSt =
      some { ready := false,
             log := initSt.log ++ [Out.docIncomplete "99% documentation coverage"] } :=
  ((docCheck_spec envC3 initSt rfl rfl).1
    "99% documentation coverage" ['9', '9'] (by rfl)).2 (by decide)

/-! ## Theorems: the swift-format lint check -/

/-- The `group(0)` value of the `JacquardSDK/.*` search on a lint line. -/
def lintMatch (line : String) : String :=
  match searchSuffix "JacquardSDK/".data line.data with
  | some suf => ⟨suf⟩
  | none => ""

/-- The lint loop, on stderr lines that are each either benign or carry a
`JacquardSDK/` path, returns one print per non-benign line and succeeds iff
there is none. -/
theorem lintProcess_spec (lines : List String)
    (h : ∀ line ∈ lines, containsSub "NoBlockComments".data line.data = true ∨
      (searchSuffix "JacquardSDK/".data line.data).isSome = true) :
    lintProcess lines =
      some ((lines.filter
          (fun l => ! containsSub "NoBlockComments".data l.data)).map
          (fun l => Out.lintLine (lintMatch l)),
        (lines.filter
          (fun l => ! containsSub "NoBlockComments".data l.data)).isEmpty) := by
  induction lines with
  | nil => rfl
  | cons line rest ih =>
    have hrest := ih (fun l hl => h l (List.mem_cons_of_mem _ hl))
    by_cases hig : containsSub "NoBlockComments".data line.data = true
    · rw [lintProcess, if_pos hig, hrest]
      simp [List.filter_cons, hig]
    · rcases h line (List.mem_cons_self _ _) with hcase | hcase
      · exact absurd hcase hig
      · obtain ⟨suf, hsuf⟩ := Option.isSome_iff_exists.mp hcase
        rw [lintProcess, if_neg hig]
        simp only [hsuf, hrest, Option.map_some']
        simp [List.filter_cons, hig, lintMatch, hsuf]

/-- C8: With every stderr line either benign (`NoBlockComments`) or carrying
a `JacquardSDK/` path, the lint check sets the flag false and prints the
matched path of each non-benign line exactly when at least one line is
non-benign; with empty stderr or only benign lines it prints ok and leaves
the state untouched apart from the log. -/
theorem lint_check_spec (env : REnv) (s : St)
    (hroot : env.gitRootExit = 0)
    (hlines : ∀ line ∈ env.swiftFormatStderrLines,
      containsSub "NoBlockComments".data line.data = true ∨
      (searchSuffix "JacquardSDK/".data line.data).isSome = true) :
    (env.swiftFormatStderrLines.filter
        (fun l => ! containsSub "NoBlockComments".data l.data) ≠ [] →
      checkSwiftFormat env s =
        some { ready := false,
               log := s.log ++
                 (env.swiftFormatStderrLines.filter
                   (fun l => ! containsSub "NoBlockComments".data l.data)).map
                   (fun l => Out.lintLine (lintMatch l)) ++ [Out.lintFailed] }) ∧
    (env.swiftFormatStderrLines.filter
        (fun l => ! containsSub "NoBlockComments".data l.data) = [] →
      checkSwiftFormat env s =
        some { s with log := s.log ++ [Out.okMsg "swift-format"] }) := by
  have hlp := lintProcess_spec env.swiftFormatStderrLines hlines
  constructor
  · intro hoff
    simp only [checkSwiftFormat, cdToGitRoot, if_pos hroot, hlp]
    rw [if_neg (by simpa [List.isEmpty_iff] using hoff)]
  · intro hoff
    simp only [checkSwiftFormat, cdToGitRoot, if_pos hroot, hlp]
    rw [if_pos (by simpa [List.isEmpty_iff] using hoff)]

def envC8 : REnv :=
  { gitRootExit := 0, preCommitExit := 0, preCommitStdout := "",
    swiftFormatStderrLines :=
      ["something benign NoBlockComments rule",
       "/repo/JacquardSDK/Classes/Bad.swift:3:1: warning: rule violated"],
    podInstallExit := 0, jazzyExit := 0, jazzyStdoutLines := [],
    xcodebuildExit := 0, xcresultMatch := true,
    coverageJson := some [covProductOK], todoOutputs := fun _ => ("0", "0") }

/-- C8 witness: one benign line and one violation; the violation's matched
path is printed and the flag goes false. -/
theorem lint_check_spec_witness :
    checkSwiftFormat envC8 initSt =
      some { ready := false,
             log := initSt.log ++
               [Out.lintLine "JacquardSDK/Classes/Bad.swift:3:1: warning: rule violated"] ++
               [Out.lintFailed] } := by
  have h := (lint_check_spec envC8 initSt rfl (by decide)).1 (by decide)
  exact h

/-! ## Theorems: well-formedness of the written JSON -/

/-- A character that may appear raw inside a JSON string literal. -/
def jsonPlainChar (c : Char) : Prop :=
  c ≠ '"' ∧ c ≠ '\\' ∧ 32 ≤ c.toNat

instance (c : Char) : Decidable (jsonPlainChar c) :=
  inferInstanceAs (Decidable (c ≠ '"' ∧ c ≠ '\\' ∧ 32 ≤ c.toNat))

/-- A run of plain characters parses as a string body up to the closing
quote. -/
theorem parseStringBody_plain (s rest : List Char)
    (h : ∀ c ∈ s, jsonPlainChar c) :
    parseStringBody (s ++ '"' :: rest) = some (s, rest) := by
  induction s with
  | nil =>
    rw [List.nil_append, parseStringBody.eq_def]
    rfl
  | cons c cs ih =>
    obtain ⟨h1, h2, h3⟩ := h c (List.mem_cons_self _ _)
    have h4 : ¬ c.toNat < 32 := by omega
    have ih' := ih (fun d hd => h d (List.mem_cons_of_mem _ hd))
    rw [List.cons_append, parseStringBody.eq_def]
    simp only [if_neg h1, if_neg h2, if_neg h4, ih', Option.map_some']

/-- A quoted plain string parses as a JSON string value. -/
theorem pv_str (fuel : Nat) (s : String) (r : List Char)
    (h : ∀ c ∈ s.data, jsonPlainChar c) :
    parseValue (fuel + 1) ('"' :: (s.data ++ '"' :: r)) = some (Json.str s, r) := by
  show (parseStringBody (s.data ++ '"' :: r)).map
    (fun p => (Json.str ⟨p.1⟩, p.2)) = some (Json.str s, r)
  rw [parseStringBody_plain s.data r h]
  rfl

/-- The trailing member list of the stamp file body. -/
theorem pm_last (fuel : Nat) (date : String) (r : List Char)
    (hd : ∀ c ∈ date.data, jsonPlainChar c) :
    parseMembers (fuel + 1 + 1)
      ('"' :: ("buildDate".data ++ '"' :: ':' :: ' ' :: '"' ::
        (date.data ++ '"' :: '\n' :: '\x7d' :: r))) =
      some ([("buildDate", Json.str date)], r) := by
  show (match parseStringBody ("buildDate".data ++ '"' :: ':' :: ' ' :: '"' ::
      (date.data ++ '"' :: '\n' :: '\x7d' :: r)) with
    | none => none
    | some (key, r1) =>
      match skipWs r1 with
      | ':' :: r2 =>
        match parseValue (fuel + 1) (skipWs r2) with
        | none => none
        | some (v, r3) =>
          match skipWs r3 with
          | ',' :: r4 =>
            match parseMembers (fuel + 1) (skipWs r4) with
            | some (ms, r5) => some (((⟨key⟩ : String), v) :: ms, r5)
            | none => none
          | '\x7d' :: r4 => some ([((⟨key⟩ : String), v)], r4)
          | _ => none
      | _ => none) = some ([("buildDate", Json.str date)], r)
  rw [parseStringBody_plain "buildDate".data _ (by decide)]
  show (match parseValue (fuel + 1)
      ('"' :: (date.data ++ '"' :: '\n' :: '\x7d' :: r)) with
    | none => none
    | some (v, r3) =>
      match skipWs r3 with
      | ',' :: r4 =>
        match parseMembers (fuel + 1) (skipWs r4) with
        | some (ms, r5) => some ((("buildDate" : String), v) :: ms, r5)
        | none => none
      | '\x7d' :: r4 => some ([(("buildDate" : String), v)], r4)
      | _ => none) = some ([("buildDate", Json.str date)], r)
  rw [pv_str fuel date _ hd]
  rfl

/-- The full member list of the stamp file body. -/
theorem pm_two (fuel : Nat) (sha date : String) (r : List Char)
    (hs : ∀ c ∈ sha.data, jsonPlainChar c)
    (hd : ∀ c ∈ date.data, jsonPlainChar c) :
    parseMembers (fuel + 1 + 1 + 1)
      ('"' :: ("buildHash".data ++ '"' :: ':' :: ' ' :: '"' ::
        (sha.data ++ '"' :: ',' :: '\n' :: ' ' :: ' ' :: '"' ::
        ("buildDate".data ++ '"' :: ':' :: ' ' :: '"' ::
        (date.data ++ '"' :: '\n' :: '\x7d' :: r))))) =
      some ([("buildHash", Json.str sha), ("buildDate", Json.str date)], r) := by
  show (match parseStringBody ("buildHash".data ++ '"' :: ':' :: ' ' :: '"' ::
      (sha.data ++ '"' :: ',' :: '\n' :: ' ' :: ' ' :: '"' ::
        ("buildDate".data ++ '"' :: ':' :: ' ' :: '"' ::
        (date.data ++ '"' :: '\n' :: '\x7d' :: r)))) with
    | none => none
    | some (key, r1) =>
      match skipWs r1 with
      | ':' :: r2 =>
        match parseValue (fuel + 1 + 1) (skipWs r2) with
        | none => none
        | some (v, r3) =>
          match skipWs r3 with
          | ',' :: r4 =>
            match parseMembers (fuel + 1 + 1) (skipWs r4) with
            | some (ms, r5) => some (((⟨key⟩ : String), v) :: ms, r5)
            | none => none
          | '\x7d' :: r4 => some ([((⟨key⟩ : String), v)], r4)
          | _ => none
      | _ => none) =
    some ([("buildHash", Json.str sha), ("buildDate", Json.str date)], r)
  rw [parseStringBody_plain "buildHash".data _ (by decide)]
  show (match parseValue (fuel + 1 + 1)
      ('"' :: (sha.data ++ '"' :: ',' :: '\n' :: ' ' :: ' ' :: '"' ::
        ("buildDate".data ++ '"' :: ':' :: ' ' :: '"' ::
        (date.data ++ '"' :: '\n' :: '\x7d' :: r)))) with
    | none => none
    | some (v, r3) =>
      match skipWs r3 with
      | ',' :: r4 =>
        match parseMembers (fuel + 1 + 1) (skipWs r4) with
        | some (ms, r5) => some ((("buildHash" : String), v) :: ms, r5)
        | none => none
      | '\x7d' :: r4 => some ([(("buildHash" : String), v)], r4)
      | _ => none) =
    some ([("buildHash", Json.str sha), ("buildDate", Json.str date)], r)
  rw [pv_str (fuel + 1) sha _ hs]
  show (match parseMembers (fuel + 1 + 1)
      ('"' :: ("buildDate".data ++ '"' :: ':' :: ' ' :: '"' ::
        (date.data ++ '"' :: '\n' :: '\x7d' :: r))) with
    | some (ms, r5) => some ((("buildHash" : String), Json.str sha) :: ms, r5)
    | none => none) =
    some ([("buildHash", Json.str sha), ("buildDate", Json.str date)], r)
  rw [pm_last fuel date r hd]

/-- The whole stamp file body parses as the two-member object. -/
theorem pv_obj (fuel : Nat) (sha date : String) (r : List Char)
    (hs : ∀ c ∈ sha.data, jsonPlainChar c)
    (hd : ∀ c ∈ date.data, jsonPlainChar c) :
    parseValue (fuel + 1 + 1 + 1 + 1)
      ('\x7b' :: '\n' :: ' ' :: ' ' :: '"' ::
        ("buildHash".data ++ '"' :: ':' :: ' ' :: '"' ::
        (sha.data ++ '"' :: ',' :: '\n' :: ' ' :: ' ' :: '"' ::
        ("buildDate".data ++ '"' :: ':' :: ' ' :: '"' ::
        (date.data ++ '"' :: '\n' :: '\x7d' :: r))))) =
      some (Json.obj [("buildHash", Json.str sha), ("buildDate", Json.str date)], r) := by
  show (match parseMembers (fuel + 1 + 1 + 1)
      ('"' :: ("buildHash".data ++ '"' :: ':' :: ' ' :: '"' ::
        (sha.data ++ '"' :: ',' :: '\n' :: ' ' :: ' ' :: '"' ::
        ("buildDate".data ++ '"' :: ':' :: ' ' :: '"' ::
        (date.data ++ '"' :: '\n' :: '\x7d' :: r))))) with
    | some (ms, rest3) => some (Json.obj ms, rest3)
    | none => none) =
    some (Json.obj [("buildHash", Json.str sha), ("buildDate", Json.str date)], r)
  rw [pm_two fuel sha date r hs hd]

/-- `pv_obj` for any fuel of at least 4. -/
theorem pv_obj_le (fuel : Nat) (h4 : 4 ≤ fuel) (sha date : String) (r : List Char)
    (hs : ∀ c ∈ sha.data, jsonPlainChar c)
    (hd : ∀ c ∈ date.data, jsonPlainChar c) :
    parseValue fuel
      ('\x7b' :: '\n' :: ' ' :: ' ' :: '"' ::
        ("buildHash".data ++ '"' :: ':' :: ' ' :: '"' ::
        (sha.data ++ '"' :: ',' :: '\n' :: ' ' :: ' ' :: '"' ::
        ("buildDate".data ++ '"' :: ':' :: ' ' :: '"' ::
        (date.data ++ '"' :: '\n' :: '\x7d' :: r))))) =
      some (Json.obj [("buildHash", Json.str sha), ("buildDate", Json.str date)], r) := by
  obtain ⟨k, rfl⟩ : ∃ k, fuel = k + 1 + 1 + 1 + 1 := ⟨fuel - 4, by omega⟩
  exact pv_obj k sha date r hs hd

/-- The stamp file content, as the character list the parser sees. -/
theorem buildHashContent_data (sha date : String) :
    (buildHashContent sha date).data =
      '\x7b' :: '\n' :: ' ' :: ' ' :: '"' ::
        ("buildHash".data ++ '"' :: ':' :: ' ' :: '"' ::
        (sha.data ++ '"' :: ',' :: '\n' :: ' ' :: ' ' :: '"' ::
        ("buildDate".data ++ '"' :: ':' :: ' ' :: '"' ::
        (date.data ++ '"' :: '\n' :: '\x7d' :: '\n' :: [])))) := by
  simp only [buildHashContent, String.data_append, List.append_assoc]
  rfl

theorem skipWs_open (t : List Char) : skipWs ('\x7b' :: t) = '\x7b' :: t := rfl

/-- C9: For hash and date strings free of double quotes, backslashes and
control characters, the written file content parses as JSON to exactly the
two-field object with those values; with a double quote in the hash, the
written content (values interpolated without escaping) is not valid JSON. -/
theorem buildStamp_json_wellformed :
    (∀ sha date : String,
      (∀ c ∈ sha.data, jsonPlainChar c) →
      (∀ c ∈ date.data, jsonPlainChar c) →
      parseJsonString (buildHashContent sha date) =
        some (Json.obj [("buildHash", Json.str sha), ("buildDate", Json.str date)])) ∧
    parseJsonString (buildHashContent "ab\"c" "2021-01-01 00:00:00 +0000") = none := by
  constructor
  · intro sha date hs hd
    simp only [parseJsonString]
    rw [buildHashContent_data, skipWs_open]
    rw [pv_obj_le _ (by simp [List.length_append]) sha date _ hs hd]
    rfl
  · rfl

/-- C9 witness: concrete plain hash and date strings. -/
theorem buildStamp_json_wellformed_witness :
    parseJsonString (buildHashContent "abc1234" "2021-01-01 00:00:00 +0000") =
      some (Json.obj [("buildHash", Json.str "abc1234"),
                      ("buildDate", Json.str "2021-01-01 00:00:00 +0000")]) :=
  buildStamp_json_wellformed.1 "abc1234" "2021-01-01 00:00:00 +0000"
    (by decide) (by decide)
